import Mathlib

/-
Verification of the entity/backend layer of the nix data model sources:
Source.hpp, Representation.hpp and Feature.cpp. Handle-level code is
translated from those files; backend capabilities and the generic
base::Entity machinery, which live outside the provided sources, are
modelled from the specification and marked as such.
-/

namespace NixSpec

--------------------------------------------------------------------------
-- Error kinds
--------------------------------------------------------------------------

/-- Error kinds of the layer as the specification names them: NullEntity
for an operation through an empty handle that needs a backend,
InvalidArgument for a null entity argument or an empty DataArray passed to
the data setter, NotFound for a failed lookup by id or index. -/
inductive NixError where
  | NullEntity
  | InvalidArgument
  | NotFound
deriving DecidableEq

--------------------------------------------------------------------------
-- LinkType codec (Feature.cpp)
--------------------------------------------------------------------------

/-- Modelled from the spec: the LinkType enumeration (declared outside the
provided sources) lists Tagged, Untagged and Indexed in that order, so the
underlying integer values are 0, 1 and 2. The codec below is embedded over
the underlying integer, because a cast can also place values outside the
three declared ones into a LinkType variable. -/
def LinkType.Tagged : Int := 0

/-- Underlying integer value of LinkType.Untagged. -/
def LinkType.Untagged : Int := 1

/-- Underlying integer value of LinkType.Indexed. -/
def LinkType.Indexed : Int := 2

/-- Translated from Feature.cpp, link_type_to_string: str starts as the
empty string, a switch over the three declared values assigns the matching
name, and str is returned; a value matching no case keeps str empty. -/
def link_type_to_string (ltype : Int) : String :=
  if ltype = LinkType.Tagged then "Tagged"
  else if ltype = LinkType.Untagged then "Untagged"
  else if ltype = LinkType.Indexed then "Indexed"
  else ""

/-- Translated from Feature.cpp, the stream output operator for LinkType:
writes the text LinkType:: followed by link_type_to_string of the value. -/
def link_type_ostream (ltype : Int) : String :=
  "LinkType::" ++ link_type_to_string ltype

--------------------------------------------------------------------------
-- Generic entity handle (base::Entity, modelled)
--------------------------------------------------------------------------

/-- Modelled from the spec: the generic entity handle of base::Entity (not
under the provided sources) either holds a shared reference to a backend
object or is empty. A backend object is represented here by a natural
number standing for its identity, since handle equality is by referent
identity and never by structural content. -/
structure Entity where
  impl : Option Nat

/-- Modelled from the spec: two handles compare equal iff their backend
references denote the same object, or both are empty. -/
def Entity.eq (a b : Entity) : Bool := a.impl == b.impl

/-- Translated from Source.hpp, operator=(none_t): assigning the null
sentinel calls nullify, which unconditionally drops the reference and
leaves the handle empty (nullify itself is modelled from the spec). -/
def Entity.assignNone (_a : Entity) : Entity := Entity.mk none

/-- Modelled from the spec: default construction yields the empty handle. -/
def Entity.defaultConstructed : Entity := Entity.mk none

--------------------------------------------------------------------------
-- DataArray, Representation, Feature
--------------------------------------------------------------------------

/-- Modelled from the spec: a DataArray handle is empty or references a
backend data-array object, represented here by its id. Comparing the
handle with the none sentinel tests emptiness; id() reads the id of the
referenced object. -/
structure DataArray where
  impl : Option String

/-- Modelled from the spec: the backend state behind a Representation or a
Feature: the stored LinkType value (by its underlying integer) and the
stored data-array reference. -/
structure RepBackend where
  linkTypeVal : Int
  dataRef : Option String
deriving DecidableEq

/-- A Representation handle: empty or holding the state of its backend
object. -/
structure Representation where
  impl : Option RepBackend
deriving DecidableEq

/-- A Feature handle: empty or holding the state of its backend object. -/
structure Feature where
  impl : Option RepBackend
deriving DecidableEq

/-- Translated from Representation.hpp, data(const DataArray &): an
argument comparing equal to none raises the InvalidArgument error kind at
the handle level; otherwise backend()->data(data.id()) runs, which on an
empty receiver fails with NullEntity (modelled from the spec) and
otherwise stores the id. The second component records the ids that
actually reached the backend data setter, so an empty list certifies that
no backend call was made. -/
def Representation.dataSet (r : Representation) (d : DataArray) :
    Except NixError Representation × List String :=
  match d.impl with
  | none => (Except.error NixError.InvalidArgument, [])
  | some did =>
      match r.impl with
      | none => (Except.error NixError.NullEntity, [])
      | some b =>
          (Except.ok (Representation.mk (some { b with dataRef := some did })), [did])

/-- Exception semantics of the data setter: on an error the receiver keeps
its previous state, on success it takes the new state. -/
def Representation.dataSetRun (r : Representation) (d : DataArray) :
    Representation × Option NixError :=
  match (Representation.dataSet r d).1 with
  | Except.ok r2 => (r2, none)
  | Except.error e => (r, some e)

/-- Translated from Feature.cpp, Feature::data(const DataArray &): the
same guard and forwarding as the Representation setter. -/
def Feature.dataSet (f : Feature) (d : DataArray) :
    Except NixError Feature × List String :=
  match d.impl with
  | none => (Except.error NixError.InvalidArgument, [])
  | some did =>
      match f.impl with
      | none => (Except.error NixError.NullEntity, [])
      | some b =>
          (Except.ok (Feature.mk (some { b with dataRef := some did })), [did])

/-- Exception semantics of the Feature data setter. -/
def Feature.dataSetRun (f : Feature) (d : DataArray) :
    Feature × Option NixError :=
  match (Feature.dataSet f d).1 with
  | Except.ok f2 => (f2, none)
  | Except.error e => (f, some e)

/-- Translated from Representation.hpp, linkType() const: forwards to the
backend; on an empty handle backend() fails with NullEntity. -/
def Representation.linkTypeGet (r : Representation) : Except NixError Int :=
  match r.impl with
  | none => Except.error NixError.NullEntity
  | some b => Except.ok b.linkTypeVal

/-- Translated from Representation.hpp, data() const: forwards to the
backend; on an empty handle backend() fails with NullEntity. -/
def Representation.dataGet (r : Representation) : Except NixError (Option String) :=
  match r.impl with
  | none => Except.error NixError.NullEntity
  | some b => Except.ok b.dataRef

--------------------------------------------------------------------------
-- Source tree (backend state) and Source handle
--------------------------------------------------------------------------

/-- Modelled from the spec: the backend state behind a Source is a node of
the source tree: an id, a type, and the ordered list of direct child
nodes. The ISource capability and its implementation are outside the
provided sources; the tree is acyclic by construction invariant. -/
inductive SrcTree where
  | node : String → String → List SrcTree → SrcTree

/-- The id of a source node. -/
def SrcTree.getId : SrcTree → String
  | .node i _ _ => i

/-- The type of a source node. -/
def SrcTree.getType : SrcTree → String
  | .node _ t _ => t

/-- The ordered direct children of a source node, in the order the backend
enumerates them, which is the order sources() returns them. -/
def SrcTree.children : SrcTree → List SrcTree
  | .node _ _ cs => cs

/-- A Source handle: empty or holding the tree state of the referenced
backend source object. -/
structure Source where
  impl : Option SrcTree

/-- Modelled from the spec: backend() yields the referenced backend object
and fails with NullEntity on an empty handle. -/
def Source.backend (s : Source) : Except NixError SrcTree :=
  match s.impl with
  | none => Except.error NixError.NullEntity
  | some t => Except.ok t

/-- Modelled from the spec: the backend hasSource(id) capability answers
true iff a direct child carries the given id. -/
def SrcTree.hasSourceB (t : SrcTree) (i : String) : Bool :=
  t.children.any (fun c => c.getId == i)

/-- Modelled from the spec: the backend deleteSource(id) capability
removes the direct children with the given id together with their whole
subtrees and answers true; when no direct child has the id it leaves the
node unchanged and answers false. -/
def SrcTree.deleteSourceB (t : SrcTree) (i : String) : SrcTree × Bool :=
  match t with
  | SrcTree.node tid tty cs =>
      if cs.any (fun c => c.getId == i) then
        (SrcTree.node tid tty (cs.filter (fun c => !(c.getId == i))), true)
      else (SrcTree.node tid tty cs, false)

/-- Translated from Source.hpp, hasSource(const std::string &): forwards
the id to the backend through backend(). -/
def Source.hasSourceId (s : Source) (i : String) : Except NixError Bool :=
  (Source.backend s).map (fun t => SrcTree.hasSourceB t i)

/-- Translated from Source.hpp, hasSource(const Source &): an argument
comparing equal to none raises the InvalidArgument error kind; otherwise
the id of the argument is forwarded, exactly as the id overload does. -/
def Source.hasSourceS (s : Source) (src : Source) : Except NixError Bool :=
  match src.impl with
  | none => Except.error NixError.InvalidArgument
  | some t2 => Source.hasSourceId s (SrcTree.getId t2)

/-- Translated from Source.hpp, getSource(const std::string &): forwards
to the backend, which yields the matching direct child or fails with
NotFound (lookup behaviour modelled from the spec). -/
def Source.getSourceId (s : Source) (i : String) : Except NixError SrcTree :=
  match s.impl with
  | none => Except.error NixError.NullEntity
  | some t =>
      match t.children.find? (fun c => c.getId == i) with
      | some c => Except.ok c
      | none => Except.error NixError.NotFound

/-- Translated from Source.hpp, getSource(size_t): forwards to the
backend, which yields the child at the index or fails with NotFound. -/
def Source.getSourceIx (s : Source) (ix : Nat) : Except NixError SrcTree :=
  match s.impl with
  | none => Except.error NixError.NullEntity
  | some t =>
      match t.children[ix]? with
      | some c => Except.ok c
      | none => Except.error NixError.NotFound

/-- Translated from Source.hpp, sourceCount(): forwards to the backend,
which counts the direct children. -/
def Source.sourceCount (s : Source) : Except NixError Nat :=
  (Source.backend s).map (fun t => t.children.length)

/-- Translated from Source.hpp, deleteSource(const std::string &):
forwards the id to the backend; the pair is the updated backend state and
the boolean answer. -/
def Source.deleteSourceId (s : Source) (i : String) : Except NixError (SrcTree × Bool) :=
  (Source.backend s).map (fun t => SrcTree.deleteSourceB t i)

/-- Translated from Source.hpp, deleteSource(const Source &): an argument
comparing equal to none raises the InvalidArgument error kind; otherwise
the id of the argument is forwarded, exactly as the id overload does. -/
def Source.deleteSourceS (s : Source) (src : Source) : Except NixError (SrcTree × Bool) :=
  match src.impl with
  | none => Except.error NixError.InvalidArgument
  | some t2 => Source.deleteSourceId s (SrcTree.getId t2)

--------------------------------------------------------------------------
-- findSources (Source.cpp body is outside the provided sources)
--------------------------------------------------------------------------

mutual

/-- Modelled from the spec: findSources visits the receiver at depth 0 and
evaluates it with the predicate; matches are appended in pre-order, the
parent before its children and siblings in the order of sources(); the
children of a node are descended into only while the remaining depth
budget is positive, so a node at exactly max_depth is evaluated but its
children are not visited. -/
def findSources (p : SrcTree → Bool) : SrcTree → Nat → List SrcTree
  | s, 0 => if p s then [s] else []
  | SrcTree.node i t cs, d+1 =>
      (if p (SrcTree.node i t cs) then [SrcTree.node i t cs] else []) ++
        findSourcesList p cs d

/-- Traversal of a sibling list, each sibling with the same remaining
depth budget, results concatenated in sibling order. -/
def findSourcesList (p : SrcTree → Bool) : List SrcTree → Nat → List SrcTree
  | [], _ => []
  | c :: cs, d => findSources p c d ++ findSourcesList p cs d

end

/-- The handle-level entry point: findSources on an empty handle fails
with NullEntity, otherwise it traverses the backend tree. -/
def Source.findSources (s : Source) (p : SrcTree → Bool) (d : Nat) :
    Except NixError (List SrcTree) :=
  (Source.backend s).map (fun t => NixSpec.findSources p t d)

mutual

/-- The depth-bounded pre-order node sequence: the receiver first, then
the pre-order sequences of the children in sibling order, descending only
while depth budget remains. -/
def preorderWithin : SrcTree → Nat → List SrcTree
  | s, 0 => [s]
  | SrcTree.node i t cs, d+1 => SrcTree.node i t cs :: preorderWithinList cs d

/-- Pre-order sequences of a sibling list, concatenated in order. -/
def preorderWithinList : List SrcTree → Nat → List SrcTree
  | [], _ => []
  | c :: cs, d => preorderWithin c d ++ preorderWithinList cs d

end

/-- Bounded reachability: ReachWithin s d x states that x lies in the
subtree of s at most d hops below s. -/
inductive ReachWithin : SrcTree → Nat → SrcTree → Prop where
  | here (s : SrcTree) (d : Nat) : ReachWithin s d s
  | child (i ty : String) (cs : List SrcTree) (d : Nat) (c x : SrcTree) :
      c ∈ cs → ReachWithin c d x → ReachWithin (SrcTree.node i ty cs) (d + 1) x

--------------------------------------------------------------------------
-- Concrete trees used as witnesses (scenario of the spec)
--------------------------------------------------------------------------

/-- Leaf A1 of the spec scenario, type electrode. -/
def tA1 : SrcTree := SrcTree.node "A1" "electrode" []

/-- Child A of the spec scenario, type probe, with child A1. -/
def tA : SrcTree := SrcTree.node "A" "probe" [tA1]

/-- Child B of the spec scenario, type probe, no children. -/
def tB : SrcTree := SrcTree.node "B" "probe" []

/-- Root R of the spec scenario, with children A and B. -/
def tR : SrcTree := SrcTree.node "R" "root" [tA, tB]

/-- The predicate of the spec scenario: type equals probe. -/
def isProbe (s : SrcTree) : Bool := s.getType == "probe"

--------------------------------------------------------------------------
-- Helper lemmas (shared)
--------------------------------------------------------------------------

mutual

/-- findSources filters the depth-bounded pre-order sequence. -/
theorem findSources_eq_filter (p : SrcTree → Bool) :
    (s : SrcTree) → (d : Nat) →
      findSources p s d = (preorderWithin s d).filter p
  | s, 0 => by
      cases h : p s <;>
        simp [findSources, preorderWithin, h]
  | SrcTree.node i t cs, d+1 => by
      have ih := findSourcesList_eq_filter p cs d
      cases h : p (SrcTree.node i t cs) <;>
        simp [findSources, preorderWithin, h, ih]

/-- List version of findSources_eq_filter. -/
theorem findSourcesList_eq_filter (p : SrcTree → Bool) :
    (cs : List SrcTree) → (d : Nat) →
      findSourcesList p cs d = (preorderWithinList cs d).filter p
  | [], _ => by simp [findSourcesList, preorderWithinList]
  | c :: cs, d => by
      have ih1 := findSources_eq_filter p c d
      have ih2 := findSourcesList_eq_filter p cs d
      simp [findSourcesList, preorderWithinList, ih1, ih2]

end

mutual

/-- Membership in the pre-order sequence is bounded reachability. -/
theorem mem_preorderWithin :
    (s : SrcTree) → (d : Nat) → (x : SrcTree) →
      (x ∈ preorderWithin s d ↔ ReachWithin s d x)
  | s, 0, x => by
      simp only [preorderWithin, List.mem_singleton]
      constructor
      · intro hx
        rw [hx]
        exact ReachWithin.here s 0
      · intro hx
        cases hx
        rfl
  | SrcTree.node i t cs, d+1, x => by
      have ih := mem_preorderWithinList cs d x
      constructor
      · intro hx
        simp [preorderWithin] at hx
        rcases hx with hx | hx
        · subst hx
          exact ReachWithin.here _ _
        · rcases ih.mp hx with ⟨c, hc, hr⟩
          exact ReachWithin.child i t cs d c x hc hr
      · intro hx
        cases hx with
        | here => simp [preorderWithin]
        | child _ _ _ _ c _ hc hr =>
            simp [preorderWithin]
            exact Or.inr (ih.mpr ⟨c, hc, hr⟩)

/-- Membership in the sibling pre-order sequence. -/
theorem mem_preorderWithinList :
    (cs : List SrcTree) → (d : Nat) → (x : SrcTree) →
      (x ∈ preorderWithinList cs d ↔ ∃ c, c ∈ cs ∧ ReachWithin c d x)
  | [], d, x => by simp [preorderWithinList]
  | c :: cs, d, x => by
      have ih1 := mem_preorderWithin c d x
      have ih2 := mem_preorderWithinList cs d x
      simp only [preorderWithinList, List.mem_append, List.mem_cons, ih1, ih2]
      constructor
      · rintro (h | ⟨c2, hc2, hr⟩)
        · exact ⟨c, Or.inl rfl, h⟩
        · exact ⟨c2, Or.inr hc2, hr⟩
      · rintro ⟨c2, hc2 | hc2, hr⟩
        · rw [hc2] at hr
          exact Or.inl hr
        · exact Or.inr ⟨c2, hc2, hr⟩

end

/-- A filter by a predicate that rejects every element is empty. -/
theorem filter_of_all_false (p : SrcTree → Bool) (hp : ∀ x, p x = false) :
    (l : List SrcTree) → l.filter p = []
  | [] => by simp
  | a :: l => by simp [List.filter_cons, hp a, filter_of_all_false p hp l]

--------------------------------------------------------------------------
-- Claim theorems
--------------------------------------------------------------------------

/-- Claim C5: streaming a LinkType value renders its canonical textual
name after the text LinkType::, for each of the three declared values. -/
theorem link_type_rendering :
    link_type_ostream LinkType.Tagged = "LinkType::Tagged"
    ∧ link_type_ostream LinkType.Untagged = "LinkType::Untagged"
    ∧ link_type_ostream LinkType.Indexed = "LinkType::Indexed" := by
  refine ⟨rfl, rfl, rfl⟩

/-- Claim C10: link_type_to_string is total; on any value outside the
three declared ones it returns the empty string, so the stream output is
just the text LinkType:: for such a value. -/
theorem link_type_to_string_total (v : Int)
    (h0 : v ≠ LinkType.Tagged) (h1 : v ≠ LinkType.Untagged)
    (h2 : v ≠ LinkType.Indexed) :
    link_type_to_string v = "" ∧ link_type_ostream v = "LinkType::" := by
  simp [link_type_to_string, link_type_ostream, h0, h1, h2]

/-- Witness for claim C10 at the out-of-range value 7. -/
theorem link_type_to_string_total_witness :
    link_type_to_string 7 = "" ∧ link_type_ostream 7 = "LinkType::" :=
  link_type_to_string_total 7 (by decide) (by decide) (by decide)

/-- Claim C4: two handles compare equal iff they reference the same
backend object or both are empty; assigning the null sentinel makes any
handle empty, equal to a default-constructed handle, and unequal to a
handle still referencing its former target. -/
theorem entity_equality_and_none_assignment (a b : Entity) :
    (Entity.eq a b = true ↔
      ((∃ r, a.impl = some r ∧ b.impl = some r) ∨ (a.impl = none ∧ b.impl = none)))
    ∧ (Entity.assignNone a).impl = none
    ∧ Entity.eq (Entity.assignNone a) Entity.defaultConstructed = true
    ∧ (∀ r, a.impl = some r →
        Entity.eq (Entity.assignNone a) (Entity.mk (some r)) = false) := by
  obtain ⟨oa⟩ := a
  obtain ⟨ob⟩ := b
  refine ⟨?_, rfl, rfl, fun r _ => rfl⟩
  cases oa <;> cases ob <;> simp [Entity.eq]
  exact eq_comm

/-- Witness for claim C4: the handle referencing object 3, once assigned
the null sentinel, no longer equals a handle referencing object 3. -/
theorem entity_equality_witness :
    Entity.eq (Entity.assignNone (Entity.mk (some 3))) (Entity.mk (some 3)) = false :=
  (entity_equality_and_none_assignment (Entity.mk (some 3))
    (Entity.mk (some 3))).2.2.2 3 rfl

/-- Claim C2: calling the data setter of a Representation or a Feature
with an empty DataArray fails with InvalidArgument, no id reaches the
backend, and the receiver is left in its previous state. -/
theorem data_empty_dataarray_invalid_argument (r : Representation) (f : Feature) :
    Representation.dataSet r (DataArray.mk none)
      = (Except.error NixError.InvalidArgument, [])
    ∧ Representation.dataSetRun r (DataArray.mk none)
      = (r, some NixError.InvalidArgument)
    ∧ Feature.dataSet f (DataArray.mk none)
      = (Except.error NixError.InvalidArgument, [])
    ∧ Feature.dataSetRun f (DataArray.mk none)
      = (f, some NixError.InvalidArgument) := by
  refine ⟨rfl, ?_, rfl, ?_⟩ <;>
    simp [Representation.dataSetRun, Feature.dataSetRun,
      Representation.dataSet, Feature.dataSet]

/-- Claim C6: Feature.dataSet and Representation.dataSet agree on every
argument: same backend-state outcome and error, same recorded backend
calls; both reject an empty DataArray, and otherwise both forward the id
of the argument to the backend. -/
theorem feature_representation_data_equivalent (b : Option RepBackend) (d : DataArray) :
    ((Representation.dataSet (Representation.mk b) d).1.map Representation.impl
      = (Feature.dataSet (Feature.mk b) d).1.map Feature.impl)
    ∧ ((Representation.dataSet (Representation.mk b) d).2
      = (Feature.dataSet (Feature.mk b) d).2)
    ∧ (d.impl = none →
        (Representation.dataSet (Representation.mk b) d).1
          = Except.error NixError.InvalidArgument
        ∧ (Feature.dataSet (Feature.mk b) d).1
          = Except.error NixError.InvalidArgument)
    ∧ (∀ did bb, d.impl = some did → b = some bb →
        Representation.dataSet (Representation.mk b) d
          = (Except.ok (Representation.mk (some { bb with dataRef := some did })), [did])
        ∧ Feature.dataSet (Feature.mk b) d
          = (Except.ok (Feature.mk (some { bb with dataRef := some did })), [did])) := by
  obtain ⟨od⟩ := d
  refine ⟨?_, ?_, ?_, ?_⟩
  · cases od <;> cases b <;> rfl
  · cases od <;> cases b <;> rfl
  · intro hd
    cases od with
    | none => exact ⟨rfl, rfl⟩
    | some did => exact absurd hd (by simp)
  · intro did bb hd hb
    cases od with
    | none => exact absurd hd (by simp)
    | some did2 =>
        obtain rfl : did2 = did := by simpa using hd
        rw [hb]
        exact ⟨rfl, rfl⟩

/-- Witness for claim C6: setting a concrete DataArray id on a live
Feature stores that id and records exactly one backend call. -/
theorem feature_representation_data_equivalent_witness :
    Feature.dataSet (Feature.mk (some (RepBackend.mk 0 none))) (DataArray.mk (some "da1"))
      = (Except.ok (Feature.mk (some (RepBackend.mk 0 (some "da1")))), ["da1"]) :=
  ((feature_representation_data_equivalent (some (RepBackend.mk 0 none))
    (DataArray.mk (some "da1"))).2.2.2 "da1" (RepBackend.mk 0 none) rfl rfl).2

/-- Claim C8: every backend-requiring operation invoked on an empty
(default-constructed) handle fails with NullEntity: child count, child
lookup by id and by index, child test, child deletion, link type get,
data get, and the backend part of the data setter. -/
theorem empty_handle_null_entity :
    Source.sourceCount (Source.mk none) = Except.error NixError.NullEntity
    ∧ (∀ i : String,
        Source.getSourceId (Source.mk none) i = Except.error NixError.NullEntity)
    ∧ (∀ ix : Nat,
        Source.getSourceIx (Source.mk none) ix = Except.error NixError.NullEntity)
    ∧ (∀ i : String,
        Source.hasSourceId (Source.mk none) i = Except.error NixError.NullEntity)
    ∧ (∀ i : String,
        Source.deleteSourceId (Source.mk none) i = Except.error NixError.NullEntity)
    ∧ (∀ p d, Source.findSources (Source.mk none) p d = Except.error NixError.NullEntity)
    ∧ Representation.linkTypeGet (Representation.mk none) = Except.error NixError.NullEntity
    ∧ Representation.dataGet (Representation.mk none) = Except.error NixError.NullEntity
    ∧ Representation.dataSet (Representation.mk none) (DataArray.mk (some "x"))
      = (Except.error NixError.NullEntity, []) :=
  ⟨rfl, fun _ => rfl, fun _ => rfl, fun _ => rfl, fun _ => rfl,
    fun _ _ => rfl, rfl, rfl, rfl⟩

/-- Claim C1: findSources visits the receiver at depth 0 (the pre-order
sequence starts with the receiver), equals the predicate filter of the
depth-bounded pre-order sequence (parent before children, siblings in the
order of sources()), contains exactly the nodes reachable within d hops
that satisfy the predicate, and contains each node at most once whenever
the visited ids are distinct. -/
theorem findSources_visits_reachable_preorder
    (p : SrcTree → Bool) (d : Nat) (s : SrcTree) :
    (preorderWithin s d).head? = some s
    ∧ findSources p s d = (preorderWithin s d).filter p
    ∧ (∀ x, x ∈ findSources p s d ↔ ReachWithin s d x ∧ p x = true)
    ∧ (((preorderWithin s d).map SrcTree.getId).Nodup →
        (findSources p s d).Nodup) := by
  have hf := findSources_eq_filter p s d
  refine ⟨?_, hf, ?_, ?_⟩
  · cases s with
    | node i t cs => cases d <;> rfl
  · intro x
    rw [hf, List.mem_filter, mem_preorderWithin s d x]
  · intro h
    rw [hf]
    exact (h.of_map _).filter p

/-- Witness for claim C1 on the spec scenario: node A is reachable within
one hop below R and matches the probe predicate, hence it occurs in the
result, and the result holds no duplicates. -/
theorem findSources_visits_witness :
    tA ∈ findSources isProbe tR 1 ∧ (findSources isProbe tR 1).Nodup := by
  have H := findSources_visits_reachable_preorder isProbe 1 tR
  refine ⟨(H.2.2.1 tA).2 ⟨?_, rfl⟩, H.2.2.2 (by decide)⟩
  exact ReachWithin.child "R" "root" [tA, tB] 0 tA tA
    (List.Mem.head _) (ReachWithin.here tA 0)

/-- Claim C7: a predicate rejecting every source yields an empty result
for every tree and every depth. -/
theorem findSources_reject_all_empty (p : SrcTree → Bool)
    (hp : ∀ x, p x = false) (s : SrcTree) (d : Nat) :
    findSources p s d = [] := by
  rw [findSources_eq_filter p s d]
  exact filter_of_all_false p hp (preorderWithin s d)

/-- Witness for claim C7 on the spec scenario tree at depth 5. -/
theorem findSources_reject_all_empty_witness :
    findSources (fun _ => false) tR 5 = [] :=
  findSources_reject_all_empty (fun _ => false) (fun _ => rfl) tR 5

/-- Claim C3: deleting by an id naming no direct child answers false and
leaves the tree unchanged, raising no error; deleting by an empty Source
argument fails with InvalidArgument; the ok-false outcome and the error
outcome are distinct values, so a caller can tell them apart. -/
theorem deleteSource_soft_false_vs_invalid_argument
    (s : Source) (t : SrcTree) (i : String) (src : Source) :
    (SrcTree.hasSourceB t i = false →
      SrcTree.deleteSourceB t i = (t, false)
      ∧ (s.impl = some t → Source.deleteSourceId s i = Except.ok (t, false)))
    ∧ (src.impl = none →
      Source.deleteSourceS s src = Except.error NixError.InvalidArgument)
    ∧ (Except.ok (t, false)
        ≠ (Except.error NixError.InvalidArgument : Except NixError (SrcTree × Bool))) := by
  refine ⟨?_, ?_, by simp⟩
  · intro h
    have hdel : SrcTree.deleteSourceB t i = (t, false) := by
      cases t with
      | node tid tty cs =>
          have h2 : cs.any (fun c => c.getId == i) = false := by
            simpa [SrcTree.hasSourceB, SrcTree.children] using h
          simp [SrcTree.deleteSourceB, h2]
    refine ⟨hdel, ?_⟩
    intro hs
    simp [Source.deleteSourceId, Source.backend, hs, Except.map, hdel]
  · intro h
    obtain ⟨oi⟩ := src
    cases oi with
    | none => rfl
    | some t2 => simp at h

/-- Witness for claim C3 on the spec scenario: the id Z names no child of
R, so deletion answers false with the tree unchanged, while an empty
Source argument raises InvalidArgument. -/
theorem deleteSource_soft_false_witness :
    Source.deleteSourceId (Source.mk (some tR)) "Z" = Except.ok (tR, false)
    ∧ Source.deleteSourceS (Source.mk (some tR)) (Source.mk none)
      = Except.error NixError.InvalidArgument := by
  have H := deleteSource_soft_false_vs_invalid_argument
    (Source.mk (some tR)) tR "Z" (Source.mk none)
  exact ⟨(H.1 (by decide)).2 rfl, H.2.1 rfl⟩

/-- Claim C9: for a non-empty Source argument, the Source overloads of
hasSource and deleteSource agree with the id overloads applied to the id
of the argument. -/
theorem source_overloads_equiv_id_overloads (s src : Source) (t2 : SrcTree)
    (h : src.impl = some t2) :
    Source.hasSourceS s src = Source.hasSourceId s (SrcTree.getId t2)
    ∧ Source.deleteSourceS s src = Source.deleteSourceId s (SrcTree.getId t2) := by
  obtain ⟨oi⟩ := src
  obtain rfl : oi = some t2 := by simpa using h
  exact ⟨rfl, rfl⟩

/-- Witness for claim C9: querying R with the handle of A agrees with
querying R with the id of A. -/
theorem source_overloads_equiv_witness :
    Source.hasSourceS (Source.mk (some tR)) (Source.mk (some tA))
      = Source.hasSourceId (Source.mk (some tR)) (SrcTree.getId tA)
    ∧ Source.deleteSourceS (Source.mk (some tR)) (Source.mk (some tA))
      = Source.deleteSourceId (Source.mk (some tR)) (SrcTree.getId tA) :=
  source_overloads_equiv_id_overloads (Source.mk (some tR)) (Source.mk (some tA)) tA rfl

end NixSpec
